import Mathlib

/-!
# Verification of the komidabot menu bot (`plugins/komida_bot.py`)

Shallow embedding of the komidabot Slack plugin in Lean 4.

* Dates are modelled as integers counting days from a fixed Monday epoch, so
  `d % 7` is the Monday-based weekday index (Python's `datetime.weekday()`).
* Python's substring test `pat in text` is modelled by `strIn` on character
  lists.
* Python's `sorted` is modelled by Mathlib's `List.insertionSort` with `≤`
  (any stable comparison sort yields the same list).
* Python dictionaries are modelled as association lists in insertion order;
  `dlook` models key lookup and `setk` models `d[k] = v` assignment.
-/

namespace Komida

/-- Test `preOf pat l` : `pat` is a prefix of `l` (models the start of Python's
substring scan). -/
def preOf : List Char → List Char → Bool
  | [], _ => true
  | _ :: _, [] => false
  | a :: as, b :: bs => a == b && preOf as bs

/-- Test `subOf pat l` : `pat` occurs as a contiguous substring of `l`. -/
def subOf (pat : List Char) : List Char → Bool
  | [] => preOf pat []
  | t :: ts => preOf pat (t :: ts) || subOf pat ts

/-- Python's `pat in text` substring containment on strings. -/
def strIn (pat text : String) : Bool :=
  subOf pat.toList text.toList

/-- Lexicographic comparison of character lists by code point: Python's
`<=` on strings. -/
def lexLe : List Char → List Char → Bool
  | [], _ => true
  | _ :: _, [] => false
  | a :: as, b :: bs =>
    if a.toNat < b.toNat then true
    else if b.toNat < a.toNat then false
    else lexLe as bs

/-- Python's `<=` on strings (code-point lexicographic order). -/
def strLe (a b : String) : Bool :=
  lexLe a.toList b.toList

/-- The campus alias table of `get_campus` (source line 27). -/
def campus_options : List (String × List String) :=
  [("cde", ["cde", "drie eiken"]), ("cgb", ["cgb", "groenenborger"]),
   ("cmi", ["cmi", "middelheim"]), ("cst", ["cst", "stad", "city"])]

/-- Function `get_campus` (source lines 14-31): collect the codes of every campus one
of whose aliases occurs in the text, sort them, default to `["cmi"]`. -/
def get_campus (text : String) : List String :=
  let campus := List.insertionSort (fun a b => strLe a b = true)
    ((campus_options.filter fun p => p.2.any fun t => strIn t text).map Prod.fst)
  if campus.length > 0 then campus else ["cmi"]

/-- The keyword/day-offset table of `get_date` (source lines 48-51), for a
given `today` (days since a Monday epoch, so `today % 7 = today.weekday()`). -/
def date_options (today : Int) : List (String × Int) :=
  [("today", 0), ("tomorrow", 1), ("yesterday", -1), ("monday", 0 - today % 7),
   ("tuesday", 1 - today % 7), ("wednesday", 2 - today % 7),
   ("thursday", 3 - today % 7), ("friday", 4 - today % 7),
   ("saturday", 5 - today % 7), ("sunday", 6 - today % 7)]

/-- Function `get_date` (source lines 34-54): collect `today + offset` for every
keyword occurring in the text, sort ascending, default to `[today]`. -/
def get_date (text : String) (today : Int) : List Int :=
  let dates := List.insertionSort (· ≤ ·)
    (((date_options today).filter fun p => strIn p.1 text).map fun p => today + p.2)
  if dates.length > 0 then dates else [today]

/-- The seven weekday-name keywords, Monday-based (indices 0-6). -/
def weekday_names : List String :=
  ["monday", "tuesday", "wednesday", "thursday", "friday", "saturday", "sunday"]

/-! ## Dictionaries

Python dictionaries are modelled as insertion-ordered association lists. -/

/-- Python dict lookup: `d[k]` when `some`, and `k in d` is `(dlook k d).isSome`. -/
def dlook {κ ν : Type} [DecidableEq κ] (k : κ) : List (κ × ν) → Option ν
  | [] => none
  | (k2, v) :: t => if k = k2 then some v else dlook k t

/-- Python dict assignment `d[k] = v`: overwrite in place, else append. -/
def setk {κ ν : Type} [DecidableEq κ] (k : κ) (v : ν) : List (κ × ν) → List (κ × ν)
  | [] => [(k, v)]
  | (k2, v2) :: t => if k = k2 then (k, v) :: t else (k2, v2) :: setk k v t

/-! ## Menu repository (`get_menu`, source lines 57-79) -/

/-- A row of the `menu` table: (type, item, price_student, price_staff);
prices in cents. -/
abbrev Row := String × String × Nat × Nat

/-- The value stored per menu-item type: (item, price_student, price_staff). -/
abbrev MenuVal := String × Nat × Nat

/-- One menu entry: type ↦ value, insertion-ordered. -/
abbrev Entry := List (String × MenuVal)

/-- The nested result of `get_menu`: (date, campus) ↦ entry. -/
abbrev Menu := List ((Int × String) × Entry)

/-- A database error (an exception raised by `sqlite3`). -/
abbrev DBError := String

/-- The sqlite3 operations `get_menu` performs, recorded as a trace. -/
inductive DBOp where
  | connect : String → DBOp
  | execute : String → DBOp
  | close : DBOp
deriving DecidableEq

/-- The SQL text of the point query in `get_menu` (source line 75). -/
def menuQuerySQL : String :=
  "SELECT type, item, price_student, price_staff FROM menu WHERE date = ? AND campus = ?"

/-- Python `itertools.product(dates, campuses)`: date-major Cartesian product. -/
def pyProduct : List Int → List String → List (Int × String)
  | [], _ => []
  | d :: ds, cs => cs.map (fun c => (d, c)) ++ pyProduct ds cs

/-- The inner row loop of `get_menu` (source lines 76-77):
`menu[(date, campus)][menu_type] = (menu_item, price_student, price_staff)`,
where `menu` is a `defaultdict(dict)`. -/
def insertRows (key : Int × String) (rows : List Row) (menu : Menu) : Menu :=
  rows.foldl (fun m r => setk key (setk r.1 r.2 ((dlook key m).getD [])) m) menu

/-- The outer pair loop of `get_menu` (source lines 74-77): execute the point
query for each (date, campus) pair, abort when the store raises, and fold
the returned rows into the accumulated menu.  Also extends the operation
trace. -/
def menuLoop (db : Int → String → Except DBError (List Row)) :
    List (Int × String) → Menu → List DBOp → Except DBError Menu × List DBOp
  | [], menu, tr => (Except.ok menu, tr)
  | (d, c) :: rest, menu, tr =>
    match db d c with
    | Except.error e => (Except.error e, tr ++ [DBOp.execute menuQuerySQL])
    | Except.ok rows =>
      menuLoop db rest (insertRows (d, c) rows menu) (tr ++ [DBOp.execute menuQuerySQL])

/-- Function `get_menu` (source lines 57-79) over an abstract row store `db`, paired
with the trace of sqlite3 operations the call performs.  The call opens a
connection to `menu.db` and then runs the pair loop; the source contains no
`close()`/`with` for the connection. -/
def get_menuRun (db : Int → String → Except DBError (List Row))
    (campuses : List String) (dates : List Int) : Except DBError Menu × List DBOp :=
  menuLoop db (pyProduct dates campuses) [] [DBOp.connect "menu.db"]

/-! ## Formatter (`create_attachments` and `format_menu`, source lines 82-127) -/

/-- The campus → attachment color table of `create_attachments` (line 92). -/
def campus_colors : List (String × String) :=
  [("cde", "good"), ("cgb", "warning"), ("cmi", "danger"), ("cst", "#439FE0")]

/-- Every campus code named by the classifier (alias table plus default) and
by the formatter (color table), deduplicated. -/
def campusCodes : List String :=
  (campus_options.map Prod.fst ++ ["cmi"] ++ campus_colors.map Prod.fst).dedup

/-- Two-decimal currency rendering of a price in cents (`{:.2f}`). -/
def money (c : Nat) : String :=
  toString (c / 100) ++ "." ++ (if c % 100 < 10 then "0" else "") ++ toString (c % 100)

/-- One formatted menu line: `<icon> <item> (€<student> / €<staff>)`. -/
def fmtLine (icon : String) (v : MenuVal) : String :=
  icon ++ " " ++ v.1 ++ " (€" ++ money v.2.1 ++ " / €" ++ money v.2.2 ++ ")"

/-- Function `format_menu` (source lines 102-127) as the list of appended lines: the
fixed `soup`, `vegetarian`, `meat` lookups, then one line per key containing
`"grill"` (in key order), then one line per key containing `"pasta"`. -/
def format_menuLines (menu : Entry) : List String :=
  (match dlook "soup" menu with
   | some v => [fmtLine ":tea:" v]
   | none => []) ++
  (match dlook "vegetarian" menu with
   | some v => [fmtLine ":tomato:" v]
   | none => []) ++
  (match dlook "meat" menu with
   | some v => [fmtLine ":poultry_leg:" v]
   | none => []) ++
  (((menu.map Prod.fst).filter fun k => strIn "grill" k).map fun k =>
    fmtLine ":meat_on_bone:" ((dlook k menu).getD ("", 0, 0))) ++
  (((menu.map Prod.fst).filter fun k => strIn "pasta" k).map fun k =>
    fmtLine ":spaghetti:" ((dlook k menu).getD ("", 0, 0)))

/-- Function `format_menu`: the lines joined with `'\n'` (source line 127). -/
def format_menu (menu : Entry) : String :=
  String.intercalate "\n" (format_menuLines menu)

/-! ## Bot controller (`KomidaPlugin.process_message`, source lines 144-213) -/

/-- A Slack API response: the `ok` flag and an error string. -/
abbrev SlackResp := Bool × String

/-- An inbound Slack message event with the fields `process_message` reads;
absent keys are `none`. -/
structure MsgData where
  username : Option String
  subtype : Option String
  text : Option String
  channel : Option String

/-- Python `.lower()` (per-character lowercasing). -/
def strLower (s : String) : String :=
  ⟨s.data.map Char.toLower⟩

/-- Greedy run of one repeated character: one `c+` regex atom. -/
def chomp (c : Char) : List Char → Nat × List Char
  | [] => (0, [])
  | x :: xs =>
    if x = c then
      let r := chomp c xs
      (r.1 + 1, r.2)
    else (0, x :: xs)

/-- Regex `re.search` with pattern `^l+u+n+c+h+!+$` succeeds: one-or-more of each of
`l`, `u`, `n`, `c`, `h`, then one-or-more `!`, anchored at the start; `$`
matches the end of the text or just before one trailing newline. -/
def lunchList (cs : List Char) : Bool :=
  let r1 := chomp 'l' cs
  let r2 := chomp 'u' r1.2
  let r3 := chomp 'n' r2.2
  let r4 := chomp 'c' r3.2
  let r5 := chomp 'h' r4.2
  let r6 := chomp '!' r5.2
  r1.1 != 0 && r2.1 != 0 && r3.1 != 0 && r4.1 != 0 && r5.1 != 0 && r6.1 != 0 &&
    (r6.2.isEmpty || r6.2 == ['\n'])

/-- The lunch-trigger regex on strings. -/
def lunchMatch (s : String) : Bool :=
  lunchList s.toList

/-- The bot-origin test of `process_message` (source line 159):
`data.get('username') == 'komidabot' or 'bot' in data.get('subtype', [])`. -/
def isBotMessage (data : MsgData) : Bool :=
  data.username == some "komidabot" ||
    (match data.subtype with
     | none => false
     | some s => strIn "bot" s)

/-- Outcome of the filtering prologue when no exception is raised. -/
inductive FilterOutcome where
  | ignored
  | proceed : String → FilterOutcome
deriving DecidableEq

/-- The `AttributeError` raised by `None.startswith('C')`. -/
def attrError : String :=
  "AttributeError: NoneType object has no attribute startswith"

/-- The filtering prologue of `process_message` (source lines 158-169):
drop bot messages, drop text-less messages, lowercase the text, then the
channel-scope check.  `data.get('channel')` is `None` when the key is
absent, and `None.startswith('C')` raises an `AttributeError`. -/
def messageFilter (data : MsgData) : Except String FilterOutcome :=
  if isBotMessage data then Except.ok FilterOutcome.ignored
  else
    match data.text with
    | none => Except.ok FilterOutcome.ignored
    | some t =>
      let text := strLower t
      match data.channel with
      | none => Except.error attrError
      | some ch =>
        if preOf "C".toList ch.toList && !(strIn "komidabot" text || lunchMatch text) then
          Except.ok FilterOutcome.ignored
        else Except.ok (FilterOutcome.proceed text)

/-- The fallible collaborators invoked inside the `try:` block of the
empty-result recovery path (source lines 179-193): the interim notice post,
the `process_error` call made when that post is not ok, the forced menu
update, and the second `get_menu` lookup.  Each may raise. -/
structure RecoveryEnv where
  postNotice : Except String SlackResp
  postErrorNotice : Except String Unit
  refresh : Except String Unit
  lookup2 : Except String Menu

/-- The body of the `try:` block (source lines 180-191): post the interim
notice, call `process_error` when its `ok` flag is false, run the forced
update, then re-run `get_menu`; the first raised exception aborts the rest. -/
def recoveryBody (env : RecoveryEnv) : Except String Menu := do
  let resp ← env.postNotice
  if !resp.1 then
    env.postErrorNotice
  env.refresh
  env.lookup2

/-- The recovery step with its enclosing `try/except Exception` (source
lines 178-193): a raised exception is logged and swallowed, and `menus`
keeps the value it had before the `try:` block. -/
def recoveryStep (env : RecoveryEnv) (menus : Menu) : Menu :=
  match recoveryBody env with
  | Except.ok m => m
  | Except.error _ => menus

/-! ## Concrete sample inputs used by witnesses and counterexamples -/

/-- A store that raises on every query. -/
def dbRaise : Int → String → Except DBError (List Row) :=
  fun _ _ => Except.error "database is locked"

/-- A store with a single soup row for (day 0, cmi). -/
def dbSample : Int → String → Except DBError (List Row) :=
  fun d c =>
    if d = 0 ∧ c = "cmi" then Except.ok [("soup", "Tomato soup", 150, 250)]
    else Except.ok []

/-- Two grill categories, one insertion order. -/
def grillMenuA : Entry :=
  [("grill a", ("Ribs", 450, 550)), ("grill b", ("Steak", 500, 600))]

/-- The same two grill categories, opposite insertion order. -/
def grillMenuB : Entry :=
  [("grill b", ("Steak", 500, 600)), ("grill a", ("Ribs", 450, 550))]

/-- A single category matching both the grill rule and the pasta rule. -/
def grillPastaMenu : Entry :=
  [("grill pasta", ("Mixed grill pasta", 450, 550))]

/-- A soup and one grill category, one insertion order. -/
def soupGrillA : Entry :=
  [("soup", ("Tomato soup", 150, 250)), ("grill x", ("Ribs", 450, 550))]

/-- The same soup and grill categories, opposite insertion order. -/
def soupGrillB : Entry :=
  [("grill x", ("Ribs", 450, 550)), ("soup", ("Tomato soup", 150, 250))]

/-- A single category matched by none of the formatter's rules. -/
def dessertMenu : Entry :=
  [("dessert", ("Cake", 200, 300))]

end Komida

namespace Komida

/-! ## Order lemmas for the lexicographic string comparison -/

theorem lexLe_total : ∀ as bs : List Char, lexLe as bs = true ∨ lexLe bs as = true := by
  intro as
  induction as with
  | nil => intro bs; exact Or.inl rfl
  | cons a as ih =>
    intro bs
    cases bs with
    | nil => exact Or.inr rfl
    | cons b bs =>
      rcases Nat.lt_trichotomy a.toNat b.toNat with h | h | h
      · exact Or.inl (by simp [lexLe, h])
      · rcases ih bs with h2 | h2
        · exact Or.inl (by simp [lexLe, h, h2])
        · exact Or.inr (by simp [lexLe, h.symm, h2])
      · exact Or.inr (by simp [lexLe, h])

theorem lexLe_trans : ∀ as bs cs : List Char,
    lexLe as bs = true → lexLe bs cs = true → lexLe as cs = true := by
  intro as
  induction as with
  | nil => intro bs cs _ _; rfl
  | cons a as ih =>
    intro bs cs h1 h2
    cases bs with
    | nil => simp [lexLe] at h1
    | cons b bs =>
      cases cs with
      | nil => simp [lexLe] at h2
      | cons c cs =>
        simp only [lexLe] at h1 h2 ⊢
        rcases Nat.lt_trichotomy a.toNat b.toNat with hab | hab | hab
        · rcases Nat.lt_trichotomy b.toNat c.toNat with hbc | hbc | hbc
          · simp [show a.toNat < c.toNat by omega]
          · simp [show a.toNat < c.toNat by omega]
          · rw [if_neg (by omega), if_pos hbc] at h2
            exact absurd h2 (by simp)
        · rcases Nat.lt_trichotomy b.toNat c.toNat with hbc | hbc | hbc
          · simp [show a.toNat < c.toNat by omega]
          · rw [if_neg (by omega), if_neg (by omega)] at h1 h2
            rw [if_neg (by omega), if_neg (by omega)]
            exact ih bs cs h1 h2
          · rw [if_neg (by omega), if_pos hbc] at h2
            exact absurd h2 (by simp)
        · rw [if_neg (by omega), if_pos hab] at h1
          exact absurd h1 (by simp)

instance : IsTotal String fun a b => strLe a b = true :=
  ⟨fun a b => lexLe_total a.toList b.toList⟩

instance : IsTrans String fun a b => strLe a b = true :=
  ⟨fun a b c => lexLe_trans a.toList b.toList c.toList⟩

/-! ## Dictionary lemmas -/

theorem dlook_setk_self {κ ν : Type} [DecidableEq κ] (k : κ) (v : ν) :
    ∀ l : List (κ × ν), dlook k (setk k v l) = some v := by
  intro l
  induction l with
  | nil => simp [setk, dlook]
  | cons p t ih =>
    by_cases h : k = p.1
    · simp [setk, dlook, h]
    · simp only [setk]
      rw [if_neg h]
      simp only [dlook]
      rw [if_neg h]
      exact ih

theorem dlook_setk_other {κ ν : Type} [DecidableEq κ] {k k2 : κ} (v : ν)
    (hne : k2 ≠ k) : ∀ l : List (κ × ν), dlook k2 (setk k v l) = dlook k2 l := by
  intro l
  induction l with
  | nil => simp [setk, dlook, hne]
  | cons p t ih =>
    by_cases h : k = p.1
    · subst h
      simp [setk, dlook, hne]
    · simp only [setk]
      rw [if_neg h]
      simp only [dlook]
      by_cases h2 : k2 = p.1
      · rw [if_pos h2, if_pos h2]
      · rw [if_neg h2, if_neg h2]
        exact ih

theorem setk_ne_nil {κ ν : Type} [DecidableEq κ] (k : κ) (v : ν) :
    ∀ l : List (κ × ν), setk k v l ≠ [] := by
  intro l
  cases l with
  | nil => simp [setk]
  | cons p t =>
    simp only [setk]
    by_cases h : k = p.1
    · rw [if_pos h]; exact List.cons_ne_nil _ _
    · rw [if_neg h]; exact List.cons_ne_nil _ _

theorem dlook_mem_keys {κ ν : Type} [DecidableEq κ] {k : κ} {v : ν} :
    ∀ {l : List (κ × ν)}, dlook k l = some v → k ∈ l.map Prod.fst := by
  intro l
  induction l with
  | nil => intro h; simp [dlook] at h
  | cons p t ih =>
    intro h
    simp only [dlook] at h
    by_cases hk : k = p.1
    · simp [hk]
    · rw [if_neg hk] at h
      simp [ih h]

theorem dlook_eq_none_of_notMem {κ ν : Type} [DecidableEq κ] {k : κ} :
    ∀ {l : List (κ × ν)}, k ∉ l.map Prod.fst → dlook k l = none := by
  intro l
  induction l with
  | nil => intro _; rfl
  | cons p t ih =>
    intro h
    simp only [List.map_cons, List.mem_cons] at h
    push_neg at h
    simp only [dlook]
    rw [if_neg h.1]
    exact ih h.2

/-- Key lookup in an association list with duplicate-free keys is invariant
under permutation. -/
theorem dlook_perm {ν : Type} {l1 l2 : List (String × ν)} (h : l1.Perm l2) :
    ∀ k, (l1.map Prod.fst).Nodup → dlook k l1 = dlook k l2 := by
  induction h with
  | nil => intro k _; rfl
  | cons x h ih =>
    intro k nd
    simp only [List.map_cons, List.nodup_cons] at nd
    simp only [dlook]
    by_cases hk : k = x.1
    · rw [if_pos hk, if_pos hk]
    · rw [if_neg hk, if_neg hk]
      exact ih k nd.2
  | swap x y l =>
    intro k nd
    simp only [List.map_cons, List.nodup_cons, List.mem_cons] at nd
    have hxy : y.1 ≠ x.1 := fun hcontra => nd.1 (Or.inl hcontra)
    simp only [dlook]
    by_cases h1 : k = y.1
    · rw [if_pos h1, if_neg (h1 ▸ hxy), if_pos h1]
    · by_cases h2 : k = x.1
      · rw [if_neg h1, if_pos h2, if_pos h2]
      · rw [if_neg h1, if_neg h2, if_neg h2, if_neg h1]
  | trans h1 h2 ih1 ih2 =>
    intro k nd
    have nd2 := ((h1.map Prod.fst).nodup_iff).mp nd
    rw [ih1 k nd, ih2 k nd2]

/-- A permutation of a list of length at most one is the identity. -/
theorem perm_eq_of_length_le_one {α : Type} {l1 l2 : List α} (h : l1.Perm l2)
    (hlen : l1.length ≤ 1) : l1 = l2 := by
  cases l1 with
  | nil => exact (List.Perm.nil_eq h).symm ▸ rfl
  | cons a t =>
    cases t with
    | nil => exact List.singleton_perm.mp h
    | cons b t2 => simp at hlen

/-! ## Repository lemmas -/

theorem insertRows_dlook_other (key k2 : Int × String) (hne : k2 ≠ key) :
    ∀ (rows : List Row) (m : Menu),
      dlook k2 (insertRows key rows m) = dlook k2 m := by
  intro rows
  induction rows with
  | nil => intro m; rfl
  | cons r rs ih =>
    intro m
    show dlook k2 (insertRows key rs (setk key _ m)) = _
    rw [ih, dlook_setk_other _ hne]

theorem insertRows_dlook_self_of_some (key : Int × String) :
    ∀ (rows : List Row) (m : Menu) (e : Entry),
      dlook key m = some e → e ≠ [] →
      ∃ e2, dlook key (insertRows key rows m) = some e2 ∧ e2 ≠ [] := by
  intro rows
  induction rows with
  | nil => intro m e he hne; exact ⟨e, he, hne⟩
  | cons r rs ih =>
    intro m e he hne
    show ∃ e2, dlook key (insertRows key rs (setk key _ m)) = some e2 ∧ e2 ≠ []
    exact ih _ _ (dlook_setk_self _ _ _) (setk_ne_nil _ _ _)

theorem insertRows_dlook_self (key : Int × String) (r : Row) (rs : List Row)
    (m : Menu) :
    ∃ e2, dlook key (insertRows key (r :: rs) m) = some e2 ∧ e2 ≠ [] := by
  show ∃ e2, dlook key (insertRows key rs (setk key _ m)) = some e2 ∧ e2 ≠ []
  exact insertRows_dlook_self_of_some key rs _ _ (dlook_setk_self _ _ _) (setk_ne_nil _ _ _)

/-- The invariant of the pair loop of `get_menu`: every present key has a
nonempty entry and its point query returned at least one row. -/
def MenuInv (db : Int → String → Except DBError (List Row)) (m : Menu) : Prop :=
  ∀ key entry, dlook key m = some entry →
    entry ≠ [] ∧ ∃ rows, db key.1 key.2 = Except.ok rows ∧ rows ≠ []

theorem menuLoop_inv (db : Int → String → Except DBError (List Row)) :
    ∀ (pairs : List (Int × String)) (m0 : Menu) (tr : List DBOp),
      MenuInv db m0 → ∀ m, (menuLoop db pairs m0 tr).1 = Except.ok m → MenuInv db m := by
  intro pairs
  induction pairs with
  | nil =>
    intro m0 tr hinv m hok
    simp only [menuLoop] at hok
    cases hok
    exact hinv
  | cons p rest ih =>
    intro m0 tr hinv m hok
    obtain ⟨d, c⟩ := p
    simp only [menuLoop] at hok
    cases hdb : db d c with
    | error e => rw [hdb] at hok; exact absurd hok (by simp)
    | ok rows =>
      rw [hdb] at hok
      refine ih _ _ ?_ m hok
      cases rows with
      | nil => exact hinv
      | cons r rs =>
        intro key entry hkey
        by_cases hkeq : key = (d, c)
        · subst hkeq
          obtain ⟨e2, he2, hne⟩ := insertRows_dlook_self (d, c) r rs m0
          rw [hkey] at he2
          cases he2
          exact ⟨hne, r :: rs, hdb, List.cons_ne_nil _ _⟩
        · rw [insertRows_dlook_other _ _ hkeq] at hkey
          exact hinv key entry hkey

theorem menuLoop_trace (db : Int → String → Except DBError (List Row)) :
    ∀ (pairs : List (Int × String)) (m0 : Menu) (tr : List DBOp),
      ∃ ex, (menuLoop db pairs m0 tr).2 = tr ++ ex ∧
        ∀ op ∈ ex, op = DBOp.execute menuQuerySQL := by
  intro pairs
  induction pairs with
  | nil =>
    intro m0 tr
    exact ⟨[], by simp [menuLoop], by simp⟩
  | cons p rest ih =>
    intro m0 tr
    obtain ⟨d, c⟩ := p
    simp only [menuLoop]
    cases hdb : db d c with
    | error e =>
      refine ⟨[DBOp.execute menuQuerySQL], rfl, ?_⟩
      simp
    | ok rows =>
      obtain ⟨ex, hex, hall⟩ := ih (insertRows (d, c) rows m0) (tr ++ [DBOp.execute menuQuerySQL])
      refine ⟨DBOp.execute menuQuerySQL :: ex, ?_, ?_⟩
      · rw [hex, List.append_assoc]
        rfl
      · intro op hop
        rcases List.mem_cons.mp hop with h | h
        · exact h
        · exact hall op h

example : get_campus "monday groenenborger" = ["cgb"] := by decide
example : get_campus "hello" = ["cmi"] := by decide
example : get_campus "cst and middelheim" = ["cmi", "cst"] := by decide
example : get_date "monday groenenborger" 2 = [0] := by decide
example : get_date "today monday" 0 = [0, 0] := by decide
example : get_date "hello" 5 = [5] := by decide
example : campusCodes = ["cde", "cgb", "cmi", "cst"] := by decide
example : (get_menuRun dbRaise ["cmi"] [0]).2 =
    [DBOp.connect "menu.db", DBOp.execute menuQuerySQL] := by decide
example : (get_menuRun dbSample ["cmi"] [0]).1 =
    Except.ok [((0, "cmi"), [("soup", ("Tomato soup", 150, 250))])] := rfl
example : format_menu grillPastaMenu =
    ":meat_on_bone: Mixed grill pasta (€4.50 / €5.50)\n:spaghetti: Mixed grill pasta (€4.50 / €5.50)" := by decide
example : format_menu grillMenuA ≠ format_menu grillMenuB := by decide
example : lunchMatch "lunch!" = true := by decide
example : lunchMatch "lluuunch!!!" = true := by decide
example : lunchMatch "lunch" = false := by decide
example : lunchMatch "lunch!x" = false := by decide
example : lunchMatch "lunch!\n" = true := by decide
example : messageFilter ⟨none, none, some "lunch!", none⟩ = Except.error attrError := rfl
example : messageFilter ⟨none, none, some "LUNCH!", some "C123"⟩ =
    Except.ok (FilterOutcome.proceed "lunch!") := rfl

/-! ## Claim theorems -/

/-- C1 (counterexample): with today a Monday (day 0), the text
`"today monday"` matches both the `today` keyword and today's weekday name;
`get_date` returns the same date twice, so its output is not duplicate-free. -/
theorem get_date_duplicate_counterexample :
    get_date "today monday" 0 = [0, 0] ∧ ¬(get_date "today monday" 0).Nodup := by
  decide

/-- C1 (amended): for every input text the list returned by `get_date` is
sorted ascending and nonempty, but it may contain duplicates: when two
matched keywords resolve to the same calendar date, the date appears once
per matched keyword, not once. -/
theorem get_date_sorted_with_duplicates (text : String) (today : Int) :
    List.Sorted (fun a b : Int => a ≤ b) (get_date text today) ∧
    get_date text today ≠ [] := by
  simp only [get_date]
  split
  · next h =>
    exact ⟨List.sorted_insertionSort _ _, List.length_pos.mp h⟩
  · exact ⟨List.sorted_singleton _, by simp⟩

/-- C2: every weekday-name keyword occurring in the text contributes the
date `today + (weekday_index − today.weekday())` to the result of
`get_date`, an offset within the current Monday-based week which may be
negative. -/
theorem get_date_weekday (text : String) (today : Int) (i : Fin 7)
    (h : strIn (weekday_names.get i) text = true) :
    today + ((i.val : Int) - today % 7) ∈ get_date text today := by
  have hmem : (weekday_names.get i, (i.val : Int) - today % 7) ∈ date_options today := by
    obtain ⟨n, hn⟩ := i
    interval_cases n <;> simp [weekday_names, date_options, List.get]
  have hsort : today + ((i.val : Int) - today % 7) ∈
      List.insertionSort (fun a b : Int => a ≤ b)
        (((date_options today).filter fun p => strIn p.1 text).map fun p => today + p.2) := by
    rw [List.mem_insertionSort]
    exact List.mem_map.mpr ⟨_, List.mem_filter.mpr ⟨hmem, h⟩, rfl⟩
  simp only [get_date]
  rw [if_pos (List.length_pos.mpr (List.ne_nil_of_mem hsort))]
  exact hsort

/-- C2 (witness): end-to-end scenario 3 — the text `"monday groenenborger"`
processed when today is a Wednesday (day 2) yields this week's Monday,
i.e. today − 2 = day 0. -/
theorem get_date_weekday_witness :
    (2 : Int) + ((((0 : Fin 7)).val : Int) - 2 % 7) ∈ get_date "monday groenenborger" 2 :=
  get_date_weekday "monday groenenborger" 2 0 (by decide)

/-- C8: `get_campus` returns exactly `["cmi"]` whenever no campus alias
occurs in the text, always returns at least one code, and its output is
always sorted lexicographically. -/
theorem get_campus_spec :
    (∀ text, (campus_options.all fun p => p.2.all fun t => !strIn t text) = true →
      get_campus text = ["cmi"]) ∧
    (∀ text, get_campus text ≠ []) ∧
    (∀ text, List.Sorted (fun a b => strLe a b = true) (get_campus text)) := by
  refine ⟨?_, ?_, ?_⟩
  · intro text h
    have hfil : (campus_options.filter fun p => p.2.any fun t => strIn t text) = [] := by
      rw [List.filter_eq_nil_iff]
      intro p hp hcontra
      rw [List.any_eq_true] at hcontra
      obtain ⟨t, ht, htt⟩ := hcontra
      have hall := List.all_eq_true.mp h p hp
      have := List.all_eq_true.mp hall t ht
      simp [htt] at this
    simp [get_campus, hfil]
  · intro text
    simp only [get_campus]
    split
    · next h => exact List.length_pos.mp h
    · simp
  · intro text
    simp only [get_campus]
    split
    · exact List.sorted_insertionSort _ _
    · exact List.sorted_singleton _

/-- C8 (witness): `"hello world"` mentions no campus alias and maps to the
default `["cmi"]`; outputs are nonempty and sorted on sample texts. -/
theorem get_campus_spec_witness :
    get_campus "hello world" = ["cmi"] ∧ get_campus "lunch!" ≠ [] ∧
    List.Sorted (fun a b => strLe a b = true) (get_campus "cst middelheim") :=
  ⟨get_campus_spec.1 "hello world" (by decide), get_campus_spec.2.1 "lunch!",
   get_campus_spec.2.2 "cst middelheim"⟩

/-- C3 (counterexample): the set of campus codes named by the classifier
(alias table plus default) and the formatter (color table) has four
entries, not five — the default `cmi` is one of the four real campuses,
not a fifth entry. -/
theorem campus_codes_five_counterexample :
    campusCodes.length = 4 ∧ campusCodes.length ≠ 5 := by
  decide

/-- C3 (amended): the campus-code set used by the classifier and the
formatter is closed and fixed at four entries `cde, cgb, cmi, cst`; the
default code `cmi` is one of these four, the formatter's color table names
exactly the same four codes, and every code `get_campus` returns lies in
the set. -/
theorem campus_codes_closed :
    campusCodes = ["cde", "cgb", "cmi", "cst"] ∧
    "cmi" ∈ campus_options.map Prod.fst ∧
    campus_colors.map Prod.fst = campus_options.map Prod.fst ∧
    ∀ text c, c ∈ get_campus text → c ∈ campusCodes := by
  refine ⟨by decide, by decide, by decide, ?_⟩
  intro text c hc
  simp only [get_campus] at hc
  split at hc
  · rw [List.mem_insertionSort] at hc
    rw [List.mem_map] at hc
    obtain ⟨p, hp, rfl⟩ := hc
    have hpo := (List.mem_filter.mp hp).1
    fin_cases hpo <;> decide
  · rw [List.mem_singleton] at hc
    subst hc
    decide

/-- C3 (witness): `"groenenborger"` classifies to `cgb`, which lies in the
closed four-element campus-code set. -/
theorem campus_codes_closed_witness : "cgb" ∈ campusCodes :=
  campus_codes_closed.2.2.2 "groenenborger" "cgb" (by decide)

/-- C4 (counterexample): when the first query raises, `get_menu` exits with
the error and its operation trace contains no `close` — the connection is
not released on the error exit path (nor on any other). -/
theorem get_menu_close_counterexample :
    (get_menuRun dbRaise ["cmi"] [(0 : Int)]).1 = Except.error "database is locked" ∧
    DBOp.close ∉ (get_menuRun dbRaise ["cmi"] [(0 : Int)]).2 := by
  exact ⟨rfl, by decide⟩

/-- C4 (amended): `get_menu` is read-only with respect to the store — every
operation it performs is the initial `connect` to `menu.db` or the
parameterized SELECT point query — and it opens a fresh connection per
call; but it never closes the connection: no exit path, normal or
erroneous, releases it explicitly. -/
theorem get_menu_trace (db : Int → String → Except DBError (List Row))
    (campuses : List String) (dates : List Int) :
    (get_menuRun db campuses dates).2.head? = some (DBOp.connect "menu.db") ∧
    (∀ op ∈ (get_menuRun db campuses dates).2,
      op = DBOp.connect "menu.db" ∨ op = DBOp.execute menuQuerySQL) ∧
    DBOp.close ∉ (get_menuRun db campuses dates).2 := by
  obtain ⟨ex, hex, hall⟩ :=
    menuLoop_trace db (pyProduct dates campuses) [] [DBOp.connect "menu.db"]
  have htr : (get_menuRun db campuses dates).2 = DBOp.connect "menu.db" :: ex := hex
  refine ⟨by rw [htr]; rfl, ?_, ?_⟩
  · intro op hop
    rw [htr] at hop
    rcases List.mem_cons.mp hop with h | h
    · exact Or.inl h
    · exact Or.inr (hall op h)
  · intro hop
    rw [htr] at hop
    rcases List.mem_cons.mp hop with h | h
    · exact DBOp.noConfusion h
    · exact DBOp.noConfusion (hall _ h)

/-- C4 (witness): a concrete successful run opens the connection first,
performs only the connect and the SELECT, and never closes. -/
theorem get_menu_trace_witness :
    (get_menuRun dbSample ["cmi"] [(0 : Int)]).2.head? = some (DBOp.connect "menu.db") ∧
    (DBOp.execute menuQuerySQL = DBOp.connect "menu.db" ∨
      DBOp.execute menuQuerySQL = DBOp.execute menuQuerySQL) ∧
    DBOp.close ∉ (get_menuRun dbSample ["cmi"] [(0 : Int)]).2 :=
  ⟨(get_menu_trace dbSample ["cmi"] [0]).1,
   (get_menu_trace dbSample ["cmi"] [0]).2.1 (DBOp.execute menuQuerySQL) (by decide),
   (get_menu_trace dbSample ["cmi"] [0]).2.2⟩

/-- C5: whenever `get_menu` returns successfully, every key present in the
returned mapping had a point query that returned at least one row, and its
entry is nonempty — the mapping never contains an empty item set. -/
theorem get_menu_entries_nonempty (db : Int → String → Except DBError (List Row))
    (campuses : List String) (dates : List Int) (menu : Menu)
    (hok : (get_menuRun db campuses dates).1 = Except.ok menu)
    (key : Int × String) (entry : Entry) (hkey : dlook key menu = some entry) :
    entry ≠ [] ∧ ∃ rows, db key.1 key.2 = Except.ok rows ∧ rows ≠ [] := by
  have hinv : MenuInv db menu := by
    refine menuLoop_inv db (pyProduct dates campuses) [] [DBOp.connect "menu.db"] ?_ menu hok
    intro k e he
    simp [dlook] at he
  exact hinv key entry hkey

/-- C5 (witness): a store with one soup row for (day 0, cmi) yields a
mapping whose single entry is nonempty and backed by a nonempty row list. -/
theorem get_menu_entries_nonempty_witness :
    ([("soup", ("Tomato soup", 150, 250))] : Entry) ≠ [] ∧
    ∃ rows, dbSample ((0 : Int), "cmi").1 ((0 : Int), "cmi").2 = Except.ok rows ∧ rows ≠ [] :=
  get_menu_entries_nonempty dbSample ["cmi"] [0]
    [(((0 : Int), "cmi"), [("soup", ("Tomato soup", 150, 250))])] rfl
    (0, "cmi") [("soup", ("Tomato soup", 150, 250))] rfl

/-- C6 (counterexample): the output of `format_menu` is not independent of
the entry's insertion order — two entries holding the same two grill
categories in opposite insertion orders format to different strings. -/
theorem format_menu_order_counterexample :
    grillMenuA.Perm grillMenuB ∧ (grillMenuA.map Prod.fst).Nodup ∧
    format_menu grillMenuA ≠ format_menu grillMenuB := by
  refine ⟨?_, by decide, by decide⟩
  unfold grillMenuA grillMenuB
  exact List.Perm.swap _ _ _

/-- C6 (amended): `format_menu` lists category lines in the fixed priority
order soup, vegetarian, meat, then `grill`-matching, then `pasta`-matching
categories; its output is the same regardless of the entry's insertion
order provided the entry holds at most one `grill`-matching and at most
one `pasta`-matching category (with several, their relative order follows
the entry's insertion order); categories matching no rule contribute no
line. -/
theorem format_menu_stable :
    (∀ m1 m2 : Entry, m1.Perm m2 → (m1.map Prod.fst).Nodup →
      ((m1.map Prod.fst).filter fun k => strIn "grill" k).length ≤ 1 →
      ((m1.map Prod.fst).filter fun k => strIn "pasta" k).length ≤ 1 →
      format_menu m1 = format_menu m2) ∧
    (∀ m : Entry,
      (m.map Prod.fst).all (fun k =>
        !(k == "soup") && !(k == "vegetarian") && !(k == "meat") &&
        !strIn "grill" k && !strIn "pasta" k) = true →
      format_menu m = "") := by
  constructor
  · intro m1 m2 hperm hnd hg hp
    have hdl : ∀ k, dlook k m1 = dlook k m2 := fun k => dlook_perm hperm k hnd
    have hkeys : (m1.map Prod.fst).Perm (m2.map Prod.fst) := hperm.map Prod.fst
    have hgf : ((m1.map Prod.fst).filter fun k => strIn "grill" k) =
        ((m2.map Prod.fst).filter fun k => strIn "grill" k) :=
      perm_eq_of_length_le_one (hkeys.filter _) hg
    have hpf : ((m1.map Prod.fst).filter fun k => strIn "pasta" k) =
        ((m2.map Prod.fst).filter fun k => strIn "pasta" k) :=
      perm_eq_of_length_le_one (hkeys.filter _) hp
    simp only [format_menu, format_menuLines, hdl, hgf, hpf]
  · intro m hall
    have hall2 := List.all_eq_true.mp hall
    have hsoup : "soup" ∉ m.map Prod.fst := by
      intro hmem
      have := hall2 _ hmem
      simp at this
    have hveg : "vegetarian" ∉ m.map Prod.fst := by
      intro hmem
      have := hall2 _ hmem
      simp at this
    have hmeat : "meat" ∉ m.map Prod.fst := by
      intro hmem
      have := hall2 _ hmem
      simp at this
    have hgr : ((m.map Prod.fst).filter fun k => strIn "grill" k) = [] := by
      rw [List.filter_eq_nil_iff]
      intro k hk hcontra
      have := hall2 _ hk
      simp only [Bool.and_eq_true, Bool.not_eq_true'] at this
      rw [this.1.2] at hcontra
      exact absurd hcontra (by simp)
    have hpa : ((m.map Prod.fst).filter fun k => strIn "pasta" k) = [] := by
      rw [List.filter_eq_nil_iff]
      intro k hk hcontra
      have := hall2 _ hk
      simp only [Bool.and_eq_true, Bool.not_eq_true'] at this
      rw [this.2] at hcontra
      exact absurd hcontra (by simp)
    simp only [format_menu, format_menuLines, dlook_eq_none_of_notMem hsoup,
      dlook_eq_none_of_notMem hveg, dlook_eq_none_of_notMem hmeat, hgr, hpa,
      List.map_nil, List.append_nil, List.nil_append]
    rfl

/-- C6 (witness): a soup plus a single grill category formats identically
under both insertion orders, and an entry holding only an unmatched
category formats to the empty string. -/
theorem format_menu_stable_witness :
    format_menu soupGrillA = format_menu soupGrillB ∧ format_menu dessertMenu = "" :=
  ⟨format_menu_stable.1 soupGrillA soupGrillB
      (by unfold soupGrillA soupGrillB; exact List.Perm.swap _ _ _)
      (by decide) (by decide) (by decide),
   format_menu_stable.2 dessertMenu (by decide)⟩

/-- C7: the empty-result recovery step never propagates an exception: for
every behaviour of the interim-notice post, the error notice, the refresh
job and the second lookup, it returns a menu value — the second lookup's
result when the `try:` body succeeds, and the previously held `menus`
value when any of its collaborators raises. -/
theorem recovery_no_propagation (env : RecoveryEnv) (menus : Menu) :
    (∃ m, recoveryBody env = Except.ok m ∧ recoveryStep env menus = m) ∨
    (∃ e, recoveryBody env = Except.error e ∧ recoveryStep env menus = menus) := by
  cases h : recoveryBody env with
  | ok m => exact Or.inl ⟨m, rfl, by simp [recoveryStep, h]⟩
  | error e => exact Or.inr ⟨e, rfl, by simp [recoveryStep, h]⟩

/-- C9: a message that passes the bot filter and carries a text payload but
no `channel` key makes the filtering prologue raise (the `AttributeError`
from `None.startswith`), instead of ignoring the message — the `channel`
key is an unstated precondition of `process_message`. -/
theorem messageFilter_missing_channel (data : MsgData) (t : String)
    (hbot : isBotMessage data = false) (htext : data.text = some t)
    (hch : data.channel = none) :
    messageFilter data = Except.error attrError := by
  simp [messageFilter, hbot, htext, hch]

/-- C9 (witness): a plain `"lunch!"` message with no channel key raises. -/
theorem messageFilter_missing_channel_witness :
    messageFilter ⟨none, none, some "lunch!", none⟩ = Except.error attrError :=
  messageFilter_missing_channel ⟨none, none, some "lunch!", none⟩ "lunch!" rfl rfl rfl

/-- C10: a category whose name contains both `"grill"` and `"pasta"` makes
`format_menu` emit two lines for that single category — one with the grill
icon and one with the pasta icon, duplicating the item in the output. -/
theorem format_menu_grill_pasta (menu : Entry) (k : String) (v : MenuVal)
    (hk : dlook k menu = some v) (hg : strIn "grill" k = true)
    (hp : strIn "pasta" k = true) :
    fmtLine ":meat_on_bone:" v ∈ format_menuLines menu ∧
    fmtLine ":spaghetti:" v ∈ format_menuLines menu := by
  have hmem : k ∈ menu.map Prod.fst := dlook_mem_keys hk
  constructor
  · simp only [format_menuLines]
    refine List.mem_append.mpr (Or.inl (List.mem_append.mpr (Or.inr ?_)))
    exact List.mem_map.mpr ⟨k, List.mem_filter.mpr ⟨hmem, hg⟩, by rw [hk]; rfl⟩
  · simp only [format_menuLines]
    refine List.mem_append.mpr (Or.inr ?_)
    exact List.mem_map.mpr ⟨k, List.mem_filter.mpr ⟨hmem, hp⟩, by rw [hk]; rfl⟩

/-- C10 (witness): the single category `"grill pasta"` yields both the
meat-on-bone line and the spaghetti line for the same item. -/
theorem format_menu_grill_pasta_witness :
    fmtLine ":meat_on_bone:" ("Mixed grill pasta", 450, 550) ∈ format_menuLines grillPastaMenu ∧
    fmtLine ":spaghetti:" ("Mixed grill pasta", 450, 550) ∈ format_menuLines grillPastaMenu :=
  format_menu_grill_pasta grillPastaMenu "grill pasta" ("Mixed grill pasta", 450, 550)
    rfl (by decide) (by decide)

end Komida
